import Mathlib

/-!
# Verification of the `coder` agent core

Shallow embedding of the agent execution core of the `coder` CLI assistant
(Go sources under `internal/`): the JSON-schema argument validator
(`internal/schema`), the permission gateway (`internal/common`), the agent
execution loop (`internal/llm/agent.go`), the sub-agent tool
(`internal/tools/agent_tool.go`), and the chat session's tool dispatch and
summarization (`internal/chat/session.go`, `internal/chat/summary.go`).

Go maps are modelled as association lists (`List (String × _)`, lookup =
first match); JSON values as an inductive `JValue`; Go's `context.Context`
as a record carrying the (static, per-run) cancellation flag; the model
transport as an oracle list of responses consumed by the loop; `json.Unmarshal`
and tool callbacks as function parameters.  Machine integers do not occur on
any path modelled here; numeric JSON payloads are carried as `Int` (only
their type tag matters to the validator).
-/

namespace Coder

/-- A JSON value as produced by `json.Unmarshal` into `map[string]any`
(`internal/schema`).  Go unmarshals every JSON number to `float64`; the
validator only inspects the dynamic type tag, so the numeric payload is
carried as an `Int`. -/
inductive JValue where
  | str (s : String)
  | num (n : Int)
  | bool (b : Bool)
  | arr (elems : List JValue)
  | obj (fields : List (String × JValue))
  | null

/-- Parsed tool arguments: Go's `map[string]any`. -/
abbrev Args := List (String × JValue)

/-- Value of the Go `any`-typed `AdditionalProperties` field of
`schema.Schema` / `schema.Property`: `nil` (unset), `true`, `false`,
or a nested schema value.  `Schema.Validate` compares it with `== false`,
so only `falseVal` triggers the closed-world error. -/
inductive AdditionalProps where
  | unset
  | trueVal
  | falseVal
  | schemaVal
  deriving DecidableEq, Repr

mutual
/-- `schema.Schema` (internal/schema): `Type`, `Properties`,
`Required`, `AdditionalProperties`.  The `$schema` URI field is ignored by
`Validate` and omitted. -/
inductive JSchema where
  | mk (type_ : String) (properties : List (String × JProperty))
       (required : List String) (additionalProperties : AdditionalProps)

/-- `schema.Property` (internal/schema): `Type`, `Description`, `Items`,
`AdditionalProperties`, `Required`, `Properties`.  `Format` and `Enum` are
never read by `Validate` and are omitted. -/
inductive JProperty where
  | mk (type_ : String) (description : String) (items : Option JSchema)
       (additionalProperties : AdditionalProps)
       (required : List String) (properties : List (String × JProperty))
end

mutual
/-- Structural size of a schema, used as the termination measure of the
validator (the Go recursion descends into `Items` schemas and into a schema
rebuilt from a property's nested `Properties`). -/
def schemaSize : JSchema → Nat
  | .mk _ props _ _ => 1 + propsSize props

def propSize : JProperty → Nat
  | .mk _ _ items _ _ props => 2 + itemsSize items + propsSize props

def itemsSize : Option JSchema → Nat
  | none => 0
  | some s => schemaSize s

def propsSize : List (String × JProperty) → Nat
  | [] => 0
  | (_, p) :: rest => 1 + propSize p + propsSize rest
end

theorem lookup_propSize_lt {name : String} {props : List (String × JProperty)}
    {p : JProperty} (h : List.lookup name props = some p) :
    propSize p < propsSize props := by
  induction props with
  | nil => simp [List.lookup] at h
  | cons hd tl ih =>
    obtain ⟨k, v⟩ := hd
    rw [List.lookup] at h
    by_cases hk : name == k
    · simp [hk] at h
      subst h
      simp [propsSize]
      omega
    · simp [hk] at h
      have := ih h
      simp [propsSize]
      omega

mutual
/-- `schema.Schema.Validate` (internal/schema).  First loop: reject on the
first `Required` entry absent from the input; second loop: per-field checks.
Go iterates the input map in unspecified order; the embedding fixes the
association-list order (the claims proved below do not depend on it). -/
def validateSchema (s : JSchema) (input : Args) : Except String Unit :=
  match s with
  | .mk _ props required ap =>
    match required.find? (fun f => (List.lookup f input).isNone) with
    | some f => .error ("missing required field: " ++ f)
    | none => validateFields props ap input
termination_by (schemaSize s, 0, 0)
decreasing_by
  apply Prod.Lex.left
  simp only [schemaSize]
  omega

/-- The second loop of `Schema.Validate`: for each supplied field, look it
up in `Properties`; an undeclared field errors only when
`AdditionalProperties == false`; a declared field is type-checked. -/
def validateFields (props : List (String × JProperty))
    (ap : AdditionalProps) (fields : Args) : Except String Unit :=
  match fields with
  | [] => .ok ()
  | (name, value) :: rest =>
    match hlk : List.lookup name props with
    | none =>
      if ap = .falseVal then .error ("unexpected field: " ++ name)
      else validateFields props ap rest
    | some p =>
      match validateProperty name p value with
      | .error e => .error e
      | .ok _ => validateFields props ap rest
termination_by (propsSize props, 1, fields.length)
decreasing_by
  · apply Prod.Lex.right
    apply Prod.Lex.right
    simp
  · apply Prod.Lex.left
    exact lookup_propSize_lt hlk
  · apply Prod.Lex.right
    apply Prod.Lex.right
    simp

/-- The per-field type switch of `Schema.Validate`. -/
def validateProperty (name : String) (p : JProperty) (value : JValue) :
    Except String Unit :=
  match p with
  | .mk ptype _ items pap preq pprops =>
    if ptype = "string" then
      match value with
      | .str _ => .ok ()
      | _ => .error ("field " ++ name ++ " must be a string")
    else if ptype = "number" ∨ ptype = "integer" then
      match value with
      | .num _ => .ok ()
      | _ => .error ("field " ++ name ++ " must be a number")
    else if ptype = "boolean" then
      match value with
      | .bool _ => .ok ()
      | _ => .error ("field " ++ name ++ " must be a boolean")
    else if ptype = "array" then
      match value with
      | .arr elems =>
        match items with
        | some isch => validateItems name isch elems 0
        | none => .ok ()
      | _ => .error ("field " ++ name ++ " must be an array")
    else if ptype = "object" then
      match value with
      | .obj fields =>
        if pprops.isEmpty then .ok ()
        else
          match validateSchema (.mk "object" pprops preq pap) fields with
          | .error e => .error ("in nested object " ++ name ++ ": " ++ e)
          | .ok _ => .ok ()
      | _ => .error ("field " ++ name ++ " must be an object")
    else .ok ()
termination_by (propSize p, 0, 0)
decreasing_by
  · apply Prod.Lex.left
    simp only [propSize, itemsSize, schemaSize]
    omega
  · apply Prod.Lex.left
    simp only [propSize, itemsSize, schemaSize]
    omega

/-- The array-item loop of `Schema.Validate`: only items that are objects
are validated against the `Items` schema. -/
def validateItems (name : String) (isch : JSchema) (elems : List JValue)
    (i : Nat) : Except String Unit :=
  match elems with
  | [] => .ok ()
  | x :: rest =>
    match x with
    | .obj o =>
      match validateSchema isch o with
      | .error e =>
        .error ("array item " ++ toString i ++ " in field " ++ name ++ ": " ++ e)
      | .ok _ => validateItems name isch rest (i + 1)
    | _ => validateItems name isch rest (i + 1)
termination_by (schemaSize isch, 1, elems.length)
decreasing_by
  all_goals first
  | (apply Prod.Lex.right
     apply Prod.Lex.left
     omega)
  | (apply Prod.Lex.right
     apply Prod.Lex.right
     simp)
end

/-- The `read` tool's input schema (`internal/tools/read_tool.go`,
`NewReadTool`): properties `path` (string), `start` (integer), `end`
(integer); required `path`; `AdditionalProperties` not set. -/
def readToolSchema : JSchema :=
  .mk "object"
    [("path", .mk "string" "The path to the file to read" none .unset [] []),
     ("start", .mk "integer"
        "The line number to start reading from (1-based, optional)"
        none .unset [] []),
     ("end", .mk "integer"
        "The line number to end reading at (1-based, inclusive, optional)"
        none .unset [] [])]
    ["path"] .unset

/-- `tools.Tool.Run` (internal/tools, the `Tool` bound to `schema.Schema`):
validate the input against the tool's schema, and only on success invoke the
tool body `Execute`. -/
def toolRun (inputSchema : JSchema) (execute : Args → Except String String)
    (input : Args) : Except String String :=
  match validateSchema inputSchema input with
  | .error e => .error e
  | .ok _ => execute input

/-! ## Permission gateway (`internal/common/permission_manager.go`) -/

/-- `common.PermissionRequest`. -/
structure PermissionRequest where
  toolName : String
  arguments : Args
  title : String
  context_ : String

/-- `common.PermissionResponse`. -/
structure PermissionResponse where
  granted : Bool
  alternateAction : String
  deriving DecidableEq, Repr

/-- `common.PermissionManager`: the `AutoApprove` map of
`config.PermissionConfig`, the optional interactive handler, and the
default policy. -/
structure PermissionManager where
  autoApprove : List (String × Bool)
  handler : Option (PermissionRequest → PermissionResponse)
  defaultPolicy : Bool

/-- `common.NewPermissionManager`: the default policy is hard-wired to
`false` (deny). -/
def newPermissionManager (autoApprove : List (String × Bool))
    (handler : Option (PermissionRequest → PermissionResponse)) :
    PermissionManager :=
  { autoApprove := autoApprove, handler := handler, defaultPolicy := false }

/-- `PermissionManager.RequestPermission`: auto-approve wins; otherwise the
interactive handler decides; with no handler, answer with the default
policy and the fixed alternate instruction. -/
def requestPermission (m : PermissionManager) (req : PermissionRequest) :
    PermissionResponse :=
  match List.lookup req.toolName m.autoApprove with
  | some true => { granted := true, alternateAction := "" }
  | _ =>
    match m.handler with
    | some h => h req
    | none =>
      { granted := m.defaultPolicy
        alternateAction := "Permission denied by default policy" }

/-! ## Conversation data model (`internal/llm/openai.go`) -/

/-- `llm.FunctionCall`: name and raw (serialized) arguments of a tool call. -/
structure FunctionCall where
  name : String
  arguments : String
  deriving DecidableEq, Repr

/-- `llm.ToolCall`. -/
structure ToolCall where
  id : String
  type_ : String
  function : FunctionCall
  deriving DecidableEq, Repr

/-- `llm.Message`. -/
structure Message where
  role : String
  content : String
  toolCalls : List ToolCall := []
  toolCallID : String := ""
  deriving DecidableEq, Repr

/-- One entry of `ChatCompletionResponse.Choices`. -/
structure Choice where
  message : Message
  finishReason : String
  deriving DecidableEq, Repr

/-- One transport interaction: the outcome of
`Client.CreateChatCompletion` — either an error or the response's list of
choices (the only part of the response the loop reads). -/
inductive TransportResult where
  | ok (choices : List Choice)
  | err (e : String)
  deriving DecidableEq, Repr

/-- Go's `context.Context` as the agent loop observes it: a cancellation
flag, fixed for the duration of one modelled run (`ctx.Done()` select and
`ctx.Err()` both test it). -/
structure Ctx where
  done : Bool
  deriving DecidableEq, Repr

/-- `context.Background()`: never cancelled. -/
def ctxBackground : Ctx := { done := false }

/-! ## Agent execution loop (`internal/llm/agent.go`) -/

/-- Result of a modelled `Agent.Run`.  Every constructor carries the
message history accumulated so far (`a.Messages` is mutated in place in Go
and survives an error return).  `pending` means the supplied transport
oracle is exhausted and the loop is issuing the next model request;
`outOfFuel` bounds the modelled recursion depth. -/
inductive RunResult where
  | interrupted (msgs : List Message)
  | apiError (e : String) (msgs : List Message)
  | emptyResponse (msgs : List Message)
  | toolError (e : String) (msgs : List Message)
  | done (m : Message) (msgs : List Message)
  | pending (msgs : List Message)
  | outOfFuel (msgs : List Message)
  deriving DecidableEq, Repr

/-- `Agent.handleToolCalls` (internal/llm/agent.go): sequentially process a
batch of tool calls.  `parse` abstracts `json.Unmarshal` of the raw
arguments; `cb` abstracts the injected `toolCallCallback`.  Returns the
extended history and, on abort (cancellation or callback error), the error
text; messages appended before the abort are retained. -/
def handleToolCallsAgent (ctx : Ctx) (parse : String → Except String Args)
    (cb : Ctx → String → Args → Except String String) :
    List ToolCall → List Message → List Message × Option String
  | [], msgs => (msgs, none)
  | tc :: rest, msgs =>
    if ctx.done then (msgs, some "tool execution interrupted")
    else
      match parse tc.function.arguments with
      | .error e =>
        handleToolCallsAgent ctx parse cb rest
          (msgs ++ [{ role := "tool"
                      content := "Error parsing arguments for "
                        ++ tc.function.name ++ ": " ++ e
                      toolCallID := tc.id }])
      | .ok args =>
        match cb ctx tc.function.name args with
        | .error e => (msgs, some ("tool call failed: " ++ e))
        | .ok result =>
          handleToolCallsAgent ctx parse cb rest
            (msgs ++ [{ role := "tool", content := result
                        toolCallID := tc.id }])

/-- The synthetic user message `Agent.Run` appends when the model stops for
`finishReason == "length"`. -/
def continueUserMessage : Message :=
  { role := "user", content := "Please continue exactly from where you left off." }

/-- `Agent.Run` (internal/llm/agent.go): the agent execution loop, driven
by an oracle list of transport results.  Each iteration: check
cancellation; send the request (take the next oracle entry; an exhausted
oracle yields `pending`, i.e. the loop is at the transport call); on
success append the first choice's message and branch on `finishReason`:
`"tool_calls"` with at least one call dispatches the batch and loops,
`"stop"` returns the message, `"length"` appends `continueUserMessage` and
loops, and any other value matches no branch and loops. -/
def agentRun (ctx : Ctx) (parse : String → Except String Args)
    (cb : Ctx → String → Args → Except String String) :
    Nat → List TransportResult → List Message → RunResult
  | 0, _, msgs => .outOfFuel msgs
  | fuel + 1, resps, msgs =>
    if ctx.done then .interrupted msgs
    else
      match resps with
      | [] => .pending msgs
      | .err e :: _ =>
        if ctx.done then .interrupted msgs else .apiError e msgs
      | .ok [] :: _ => .emptyResponse msgs
      | .ok (choice :: _) :: rest =>
        let msgs1 := msgs ++ [choice.message]
        if choice.finishReason == "tool_calls"
            && !choice.message.toolCalls.isEmpty then
          match handleToolCallsAgent ctx parse cb choice.message.toolCalls
              msgs1 with
          | (msgs2, some e) => .toolError ("handling tool calls: " ++ e) msgs2
          | (msgs2, none) => agentRun ctx parse cb fuel rest msgs2
        else if choice.finishReason == "stop" then .done choice.message msgs1
        else if choice.finishReason == "length" then
          agentRun ctx parse cb fuel rest (msgs1 ++ [continueUserMessage])
        else agentRun ctx parse cb fuel rest msgs1

/-! ## Sub-agent delegation (`internal/tools/agent_tool.go`) -/

/-- The context under which the `agent` tool's `Execute` runs the spawned
sub-agent.  `NewAgentTool`'s `Execute` closure contains literally
`ctx := context.Background()` followed by `agent.Run(ctx)`: the context is
a fresh background context, built without reference to any parent
cancellation handle (the `Tool.Execute` signature
`func(input map[string]any) (string, error)` carries no context at all).
The `parentCtx` parameter records the handle of the run that dispatched the
tool call; the definition ignores it, exactly as the source does. -/
def agentToolRunContext (_parentCtx : Ctx) : Ctx := ctxBackground

/-- The sub-agent's system prompt (`agentPrompt` in `NewAgentTool`). -/
def agentToolSystemPrompt : String :=
  "You are a code analysis agent. You can only use read-only tools to analyze code.\nYou CANNOT use any write tools or tools that modify the filesystem.\nYou must complete the task assigned to you and return a concise response.\n\nFormat your response in markdown. Include relevant code snippets and explanations.\nShow your work by explaining how you arrived at your conclusions."

/-- The sub-agent's initial history: `llm.NewAgent` seeds `[system]`, then
`NewAgentTool.Execute` calls `agent.AddMessage("user", prompt)`. -/
def subAgentInitMessages (prompt : String) : List Message :=
  [{ role := "system", content := agentToolSystemPrompt },
   { role := "user", content := prompt }]

/-- The spawned sub-agent's run, as wired in `NewAgentTool.Execute`: the
agent execution loop over the sub-agent's own history, under the context
built by the tool (`agentToolRunContext`), never under the parent's. -/
def agentToolRun (parentCtx : Ctx) (parse : String → Except String Args)
    (cb : Ctx → String → Args → Except String String) (fuel : Nat)
    (resps : List TransportResult) (prompt : String) : RunResult :=
  agentRun (agentToolRunContext parentCtx) parse cb fuel resps
    (subAgentInitMessages prompt)

/-- Whether a run result is the `Interrupted` outcome. -/
def RunResult.isInterrupted : RunResult → Bool
  | .interrupted _ => true
  | _ => false

/-! ## Session tool dispatch (`internal/chat/session.go`) -/

/-- A registered tool as the session sees it: its input schema and body
(`tools.Tool`); `CTool.run` is `Tool.Run` (validate, then execute). -/
structure CTool where
  inputSchema : JSchema
  execute : Args → Except String String

/-- `tools.Tool.Run` for a registry entry. -/
def CTool.run (t : CTool) (input : Args) : Except String String :=
  toolRun t.inputSchema t.execute input

/-- `Session.handleToolCalls` (internal/chat/session.go), without the
trailing `continueConversation` call: sequentially dispatch the batch,
appending exactly one tool-role message per call — parse failure, missing
tool, execution error, or result — each carrying the call's `ID`.
`registry` models `tools.Registry` (`Get` = map lookup). -/
def sessionDispatch (ctx : Ctx) (parse : String → Except String Args)
    (registry : List (String × CTool)) :
    List ToolCall → List Message → List Message × Option String
  | [], msgs => (msgs, none)
  | tc :: rest, msgs =>
    if ctx.done then (msgs, some "tool execution interrupted")
    else
      match parse tc.function.arguments with
      | .error e =>
        sessionDispatch ctx parse registry rest
          (msgs ++ [{ role := "tool"
                      content := "Error parsing arguments for "
                        ++ tc.function.name ++ ": " ++ e
                      toolCallID := tc.id }])
      | .ok args =>
        match List.lookup tc.function.name registry with
        | none =>
          sessionDispatch ctx parse registry rest
            (msgs ++ [{ role := "tool"
                        content := "Tool not found: " ++ tc.function.name
                        toolCallID := tc.id }])
        | some tool =>
          match tool.run args with
          | .error e =>
            sessionDispatch ctx parse registry rest
              (msgs ++ [{ role := "tool"
                          content := "Error executing " ++ tc.function.name
                            ++ ": " ++ e
                          toolCallID := tc.id }])
          | .ok result =>
            sessionDispatch ctx parse registry rest
              (msgs ++ [{ role := "tool", content := result
                          toolCallID := tc.id }])

/-- The tool-role message `Session.handleToolCalls` appends for one tool
call (derived characterization of the four branches above; proved equal to
the dispatch loop's behaviour in `sessionDispatch_eq_map`). -/
def sessionToolMsg (parse : String → Except String Args)
    (registry : List (String × CTool)) (tc : ToolCall) : Message :=
  match parse tc.function.arguments with
  | .error e =>
    { role := "tool"
      content := "Error parsing arguments for " ++ tc.function.name ++ ": " ++ e
      toolCallID := tc.id }
  | .ok args =>
    match List.lookup tc.function.name registry with
    | none =>
      { role := "tool", content := "Tool not found: " ++ tc.function.name
        toolCallID := tc.id }
    | some tool =>
      match tool.run args with
      | .error e =>
        { role := "tool"
          content := "Error executing " ++ tc.function.name ++ ": " ++ e
          toolCallID := tc.id }
      | .ok result =>
        { role := "tool", content := result, toolCallID := tc.id }

/-! ## Summarization and compaction (`internal/chat/summary.go`) -/

/-- The marker `AddSummaryToContext` searches for in the second message to
recognize an existing summary message. -/
def summaryMarker : String := "Here is a summary of the conversation so far:"

/-- `strings.Contains`. -/
def strContains (s pat : String) : Bool := decide (pat.data <:+: s.data)

/-- The summary message `AddSummaryToContext` creates or updates. -/
def summaryMessageFor (summary : String) : Message :=
  { role := "system"
    content := "Here is a summary of the conversation so far:\n\n" ++ summary
      ++ "\n\nPlease use this as context for your responses." }

/-- The `hasSummaryMessage` test of `AddSummaryToContext`: the history has
a second message, of role `system`, whose content contains the marker. -/
def hasSummaryMessage (msgs : List Message) : Bool :=
  match msgs with
  | _ :: m1 :: _ => m1.role == "system" && strContains m1.content summaryMarker
  | _ => false

/-- `Session.AddSummaryToContext` (internal/chat/summary.go).
`summarizeResult` abstracts the outcome of the `SummarizeMessages` call
(`.ok ""` is what `SummarizeMessages` returns for a history of at most one
message).  On a non-empty summary: replace the existing summary message in
place, or insert the summary as the second message; the rest of the
history is kept. -/
def addSummaryToContext (summarizeResult : Except String String)
    (msgs : List Message) : Except String (List Message) :=
  match summarizeResult with
  | .error e => .error e
  | .ok summary =>
    if summary == "" then .ok msgs
    else if hasSummaryMessage msgs then
      .ok (msgs.set 1 (summaryMessageFor summary))
    else if msgs.length > 1 then
      .ok (msgs.take 1 ++ [summaryMessageFor summary] ++ msgs.drop 1)
    else .ok msgs

/-- The summarization system prompt of `SummarizeMessages`. -/
def summarySystemMessage : Message :=
  { role := "system"
    content := "Your task is to create a concise summary of the conversation provided below. Focus only on the key points, technical details, and important decisions made. The summary should be factual and neutral, highlighting the main topics discussed, code concepts explained, and solutions proposed. Keep the summary under 300 words. Ignore any casual conversation or pleasantries." }

/-- The final user instruction of `SummarizeMessages`. -/
def summaryFinalUserMessage : Message :=
  { role := "user"
    content := "Please summarize our conversation so far into a concise, factual summary focusing on key technical points." }

/-- The message list of the summarization request built by
`Session.SummarizeMessages`: its own system prompt, then the session
messages from index `max 1 (len-20)` on with tool-role messages skipped,
then the final user instruction.  (Go computes `max(1, len(s.messages)-20)`
over `int`; over `Nat` the truncated subtraction gives the same value.) -/
def summaryPromptOf (msgs : List Message) : List Message :=
  summarySystemMessage ::
    ((msgs.drop (max 1 (msgs.length - 20))).filter (fun m => m.role != "tool")
      ++ [summaryFinalUserMessage])

/-! ## Accessors -/

/-- The `Required` field of a schema. -/
def JSchema.required : JSchema → List String
  | .mk _ _ req _ => req

/-- The `Properties` field of a schema. -/
def JSchema.properties : JSchema → List (String × JProperty)
  | .mk _ props _ _ => props

/-! ## Theorems -/

/-- **C8.** For every tool input schema and every arguments object missing
at least one field listed in the schema's `Required` list, `Validate`
rejects the arguments with a missing-required-field error (naming the first
missing required field), regardless of the other supplied fields: the
required-field loop runs before any per-field check. -/
theorem validateSchema_missing_required (s : JSchema) (input : Args)
    (f : String) (hf : f ∈ s.required) (hmiss : List.lookup f input = none) :
    ∃ f', validateSchema s input = .error ("missing required field: " ++ f')
      ∧ f' ∈ s.required ∧ List.lookup f' input = none := by
  obtain ⟨t, props, req, ap⟩ := s
  simp only [JSchema.required] at hf ⊢
  cases hfind : req.find? (fun g => (List.lookup g input).isNone) with
  | none =>
    exfalso
    have := List.find?_eq_none.mp hfind f hf
    simp [hmiss] at this
  | some f' =>
    refine ⟨f', ?_, List.mem_of_find?_eq_some hfind, ?_⟩
    · simp only [validateSchema, hfind]
    · have := List.find?_some hfind
      simpa using this

/-- Witness for `validateSchema_missing_required`: the `read` tool's schema
rejects `{"start": 3}` since `path` is required and absent. -/
theorem validateSchema_missing_required_witness :
    ∃ f', validateSchema readToolSchema [("start", JValue.num 3)]
        = .error ("missing required field: " ++ f')
      ∧ f' ∈ readToolSchema.required
      ∧ List.lookup f' [("start", JValue.num 3)] = none :=
  validateSchema_missing_required readToolSchema [("start", JValue.num 3)]
    "path" (by simp [readToolSchema, JSchema.required]) rfl

/-- **C4, counterexample.** The claim says an arguments object supplying a
field not declared in the tool's schema always fails validation with an
unexpected-field error, so the tool body is never invoked.  On the `read`
tool (which, like every registered tool, does not set
`AdditionalProperties`), the input `{"path": "a.txt", "bogus": "zzz"}`
supplies the undeclared field `bogus`, yet validation succeeds and
`Tool.Run` invokes the body: `Schema.Validate` reports `unexpected field`
only when `AdditionalProperties == false`. -/
theorem validate_open_world_cex :
    List.lookup "bogus" readToolSchema.properties = none
    ∧ validateSchema readToolSchema
        [("path", JValue.str "a.txt"), ("bogus", JValue.str "zzz")] = .ok ()
    ∧ toolRun readToolSchema (fun _ => .ok "TOOL BODY RAN")
        [("path", JValue.str "a.txt"), ("bogus", JValue.str "zzz")]
        = .ok "TOOL BODY RAN" := by
  refine ⟨rfl, ?_, ?_⟩
  · simp [validateSchema, readToolSchema, List.find?, List.lookup,
      validateFields, validateProperty]
  · simp [toolRun, validateSchema, readToolSchema, List.find?, List.lookup,
      validateFields, validateProperty]

/-- With `AdditionalProperties` unset, the per-field loop of
`Schema.Validate` succeeds as soon as every declared supplied field
type-checks; undeclared fields are skipped. -/
theorem validateFields_unset_ok (props : List (String × JProperty))
    (input : Args)
    (hfields : ∀ nv ∈ input, ∀ p, List.lookup nv.1 props = some p →
      validateProperty nv.1 p nv.2 = .ok ()) :
    validateFields props .unset input = .ok () := by
  induction input with
  | nil => simp [validateFields]
  | cons nv rest ih =>
    obtain ⟨name, value⟩ := nv
    rw [validateFields]
    cases hlk : List.lookup name props with
    | none =>
      simp only [hlk]
      exact ih (fun nv h p hp => hfields nv (List.mem_cons_of_mem _ h) p hp)
    | some p =>
      simp only [hlk]
      rw [hfields ⟨name, value⟩ (List.mem_cons_self _ _) p hlk]
      exact ih (fun nv h p hp => hfields nv (List.mem_cons_of_mem _ h) p hp)

/-- **C4, amended.** For a schema that leaves `AdditionalProperties` unset
(as every registered tool does), undeclared supplied fields are accepted:
if every required field is present and every declared supplied field
type-checks, `Tool.Run` reaches the tool body regardless of undeclared
fields.  (The unexpected-field rejection happens only when the schema sets
`additionalProperties` to `false`.) -/
theorem toolRun_unset_additional_accepts_undeclared (t : String)
    (props : List (String × JProperty)) (req : List String) (input : Args)
    (execute : Args → Except String String)
    (hreq : req.find? (fun f => (List.lookup f input).isNone) = none)
    (hfields : ∀ nv ∈ input, ∀ p, List.lookup nv.1 props = some p →
      validateProperty nv.1 p nv.2 = .ok ()) :
    toolRun (.mk t props req .unset) execute input = execute input := by
  rw [toolRun, validateSchema, hreq, validateFields_unset_ok props input hfields]

/-- Witness for `toolRun_unset_additional_accepts_undeclared`: the body of
the `read`-shaped tool runs on arguments with the undeclared field
`bogus`. -/
theorem toolRun_unset_additional_accepts_undeclared_witness :
    toolRun (.mk "object"
      [("path", .mk "string" "The path to the file to read" none .unset [] []),
       ("start", .mk "integer"
          "The line number to start reading from (1-based, optional)"
          none .unset [] []),
       ("end", .mk "integer"
          "The line number to end reading at (1-based, inclusive, optional)"
          none .unset [] [])]
      ["path"] .unset)
      (fun _ => .ok "TOOL BODY RAN")
      [("path", JValue.str "a.txt"), ("bogus", JValue.str "zzz")]
      = (fun _ => Except.ok (ε := String) "TOOL BODY RAN")
          [("path", JValue.str "a.txt"), ("bogus", JValue.str "zzz")] :=
  toolRun_unset_additional_accepts_undeclared "object" _ _ _ _
    rfl
    (by
      intro nv hnv p hp
      rcases List.mem_cons.mp hnv with h | hnv2
      · subst h
        simp only [List.lookup] at hp
        simp only [beq_self_eq_true, Option.some_inj] at hp
        subst hp
        simp [validateProperty]
      · rcases List.mem_cons.mp hnv2 with h | hnv3
        · subst h
          simp [List.lookup] at hp
        · exact absurd hnv3 (List.not_mem_nil _))

/-- **C7.** With no interactive handler configured and no allow-list entry
for the requested tool, `RequestPermission` returns `granted = false` with
the fixed alternate instruction naming the default-deny policy (the
default policy is hard-wired to `false` by `NewPermissionManager`). -/
theorem requestPermission_default_deny (aa : List (String × Bool))
    (req : PermissionRequest) (h : List.lookup req.toolName aa = none) :
    requestPermission (newPermissionManager aa none) req
      = { granted := false
          alternateAction := "Permission denied by default policy" } := by
  simp [requestPermission, newPermissionManager, h]

/-- Witness for `requestPermission_default_deny`: the `shell` tool with an
allow-list that only mentions `read`. -/
theorem requestPermission_default_deny_witness :
    requestPermission
      (newPermissionManager [("read", true)] none)
      { toolName := "shell", arguments := [], title := "Shell"
        context_ := "run a command" }
      = { granted := false
          alternateAction := "Permission denied by default policy" } :=
  requestPermission_default_deny [("read", true)]
    { toolName := "shell", arguments := [], title := "Shell"
      context_ := "run a command" } rfl

/-- **C2, counterexample.** The claim says `Agent.Run` treats a
`finishReason` other than `"tool_calls"`, `"stop"`, `"length"` (for
example `"content_filter"`) exactly like `"stop"`: terminate and return
the assistant message.  With a single `"content_filter"` response,
`Agent.Run` instead loops and issues another model request (`pending`:
the loop is back at the transport call), while the identical `"stop"`
response terminates with `done` — the two outcomes differ. -/
theorem unrecognized_finish_not_stop_cex :
    agentRun { done := false } (fun _ => .error "unused")
      (fun _ _ _ => .ok "") 2
      [.ok [{ message := { role := "assistant", content := "blocked" }
              finishReason := "content_filter" }]]
      [{ role := "system", content := "prompt" }]
    = .pending [{ role := "system", content := "prompt" },
        { role := "assistant", content := "blocked" }]
    ∧ agentRun { done := false } (fun _ => .error "unused")
        (fun _ _ _ => .ok "") 2
        [.ok [{ message := { role := "assistant", content := "blocked" }
                finishReason := "stop" }]]
        [{ role := "system", content := "prompt" }]
      = .done { role := "assistant", content := "blocked" }
          [{ role := "system", content := "prompt" },
           { role := "assistant", content := "blocked" }]
    ∧ (RunResult.pending [{ role := "system", content := "prompt" },
          { role := "assistant", content := "blocked" }]
        ≠ .done { role := "assistant", content := "blocked" }
            [{ role := "system", content := "prompt" },
             { role := "assistant", content := "blocked" }]) :=
  ⟨rfl, rfl, by decide⟩

/-- **C2, amended.** In `Agent.Run`, a response whose `finishReason` is
none of `"tool_calls"`, `"stop"`, `"length"` matches no branch of the
dispatch: the assistant message is appended to the history and the loop
issues another model request without terminating; it is
`Session.continueConversation`, not `Agent.Run`, that treats such values
like `"stop"`. -/
theorem agentRun_unrecognized_finish_continues (ctx : Ctx)
    (parse : String → Except String Args)
    (cb : Ctx → String → Args → Except String String) (fuel : Nat)
    (m : Message) (fr : String) (more : List Choice)
    (rest : List TransportResult) (msgs : List Message)
    (hdone : ctx.done = false) (h1 : fr ≠ "tool_calls") (h2 : fr ≠ "stop")
    (h3 : fr ≠ "length") :
    agentRun ctx parse cb (fuel + 1)
        (.ok ({ message := m, finishReason := fr } :: more) :: rest) msgs
      = agentRun ctx parse cb fuel rest (msgs ++ [m])
    ∧ agentRun ctx parse cb (fuel + 2)
        [.ok [{ message := m, finishReason := fr }]] msgs
      = .pending (msgs ++ [m]) := by
  constructor
  · rw [agentRun]
    simp [hdone, h1, h2, h3]
  · rw [agentRun]
    simp only [hdone, Bool.false_eq_true, if_false]
    simp [h1, h2, h3]
    rw [agentRun]
    simp [hdone]

/-- Witness for `agentRun_unrecognized_finish_continues`, at
`finishReason = "content_filter"`. -/
theorem agentRun_unrecognized_finish_continues_witness :
    agentRun { done := false } (fun _ => .error "unused")
        (fun _ _ _ => .ok "") 1
        [.ok [{ message := { role := "assistant", content := "blocked" }
                finishReason := "content_filter" }]]
        [{ role := "system", content := "prompt" }]
      = agentRun { done := false } (fun _ => .error "unused")
          (fun _ _ _ => .ok "") 0 []
          ([{ role := "system", content := "prompt" }]
            ++ [{ role := "assistant", content := "blocked" }])
    ∧ agentRun { done := false } (fun _ => .error "unused")
        (fun _ _ _ => .ok "") 2
        [.ok [{ message := { role := "assistant", content := "blocked" }
                finishReason := "content_filter" }]]
        [{ role := "system", content := "prompt" }]
      = .pending ([{ role := "system", content := "prompt" }]
          ++ [{ role := "assistant", content := "blocked" }]) :=
  agentRun_unrecognized_finish_continues { done := false }
    (fun _ => .error "unused") (fun _ _ _ => .ok "") 0
    { role := "assistant", content := "blocked" } "content_filter" [] []
    [{ role := "system", content := "prompt" }]
    rfl (by decide) (by decide) (by decide)

/-- **C6.** When a response's `finishReason` is `"length"`, `Agent.Run`
appends the assistant message and then the synthetic user message
`"Please continue exactly from where you left off."` to the history and
loops back to the request-building step: with the oracle exhausted the run
is `pending` at the next transport call — a second model request is issued
automatically, with no human involvement and without terminating. -/
theorem agentRun_length_recovery (ctx : Ctx)
    (parse : String → Except String Args)
    (cb : Ctx → String → Args → Except String String) (fuel : Nat)
    (m : Message) (more : List Choice) (rest : List TransportResult)
    (msgs : List Message) (hdone : ctx.done = false) :
    agentRun ctx parse cb (fuel + 1)
        (.ok ({ message := m, finishReason := "length" } :: more) :: rest)
        msgs
      = agentRun ctx parse cb fuel rest (msgs ++ [m, continueUserMessage])
    ∧ agentRun ctx parse cb (fuel + 2)
        [.ok [{ message := m, finishReason := "length" }]] msgs
      = .pending (msgs ++ [m, continueUserMessage])
    ∧ continueUserMessage.role = "user"
    ∧ continueUserMessage.content
        = "Please continue exactly from where you left off." := by
  refine ⟨?_, ?_, rfl, rfl⟩
  · rw [agentRun]
    simp [hdone]
  · rw [agentRun]
    simp only [hdone, Bool.false_eq_true, if_false]
    simp
    rw [agentRun]
    simp [hdone]

/-- Witness for `agentRun_length_recovery`. -/
theorem agentRun_length_recovery_witness :
    agentRun { done := false } (fun _ => .error "unused")
        (fun _ _ _ => .ok "") 1
        [.ok [{ message := { role := "assistant", content := "partial answer" }
                finishReason := "length" }]]
        [{ role := "system", content := "prompt" }]
      = agentRun { done := false } (fun _ => .error "unused")
          (fun _ _ _ => .ok "") 0 []
          ([{ role := "system", content := "prompt" }]
            ++ [{ role := "assistant", content := "partial answer" },
                continueUserMessage])
    ∧ agentRun { done := false } (fun _ => .error "unused")
        (fun _ _ _ => .ok "") 2
        [.ok [{ message := { role := "assistant", content := "partial answer" }
                finishReason := "length" }]]
        [{ role := "system", content := "prompt" }]
      = .pending ([{ role := "system", content := "prompt" }]
          ++ [{ role := "assistant", content := "partial answer" },
              continueUserMessage])
    ∧ continueUserMessage.role = "user"
    ∧ continueUserMessage.content
        = "Please continue exactly from where you left off." :=
  agentRun_length_recovery { done := false } (fun _ => .error "unused")
    (fun _ _ _ => .ok "") 0
    { role := "assistant", content := "partial answer" } [] []
    [{ role := "system", content := "prompt" }] rfl

/-- **C3, counterexample.** The claim says the sub-agent's loop observes
the cancellation handle threaded in from the parent's run, so signalling
that handle interrupts the sub-agent's in-flight work.  With the parent's
handle already signalled (`done = true`), the sub-agent spawned by the
`agent` tool still runs to completion (`done` outcome) because
`NewAgentTool.Execute` runs it under a fresh `context.Background()`;
running the same loop under the parent's handle would have been
interrupted before the first model call. -/
theorem subagent_ignores_parent_cancel_cex :
    agentToolRunContext { done := true } ≠ { done := true }
    ∧ agentToolRun { done := true } (fun _ => .error "unused")
        (fun _ _ _ => .ok "") 2
        [.ok [{ message := { role := "assistant", content := "analysis done" }
                finishReason := "stop" }]]
        "inspect the parser"
      = .done { role := "assistant", content := "analysis done" }
          (subAgentInitMessages "inspect the parser"
            ++ [{ role := "assistant", content := "analysis done" }])
    ∧ agentRun { done := true } (fun _ => .error "unused")
        (fun _ _ _ => .ok "") 2
        [.ok [{ message := { role := "assistant", content := "analysis done" }
                finishReason := "stop" }]]
        (subAgentInitMessages "inspect the parser")
      = .interrupted (subAgentInitMessages "inspect the parser") :=
  ⟨by decide, rfl, rfl⟩

/-- Under a non-cancelled context the agent loop can never reach the
`interrupted` outcome (the only sources of `interrupted` are the
cancellation checks, and they all test the same flag). -/
theorem agentRun_not_interrupted (ctx : Ctx)
    (parse : String → Except String Args)
    (cb : Ctx → String → Args → Except String String)
    (hdone : ctx.done = false) :
    ∀ (fuel : Nat) (resps : List TransportResult) (msgs : List Message),
      (agentRun ctx parse cb fuel resps msgs).isInterrupted = false := by
  intro fuel
  induction fuel with
  | zero => intro resps msgs; rfl
  | succ n ih =>
    intro resps msgs
    match resps with
    | [] =>
      rw [agentRun]
      simp [hdone, RunResult.isInterrupted]
    | .err e :: _ =>
      rw [agentRun]
      simp [hdone, RunResult.isInterrupted]
    | .ok [] :: _ =>
      rw [agentRun]
      simp [hdone, RunResult.isInterrupted]
    | .ok (choice :: _) :: rest =>
      rw [agentRun]
      simp only [hdone, Bool.false_eq_true, if_false]
      split
      · split
        · rfl
        · exact ih rest _
      · split
        · rfl
        · split
          · exact ih rest _
          · exact ih rest _

/-- **C3, amended.** The sub-agent spawned by the `agent` tool runs under
a fresh background context built inside the tool's `Execute`
(`ctx := context.Background()`); the parent's cancellation handle is not
threaded in (`Tool.Execute` has no context parameter), so signalling the
parent's handle never interrupts the sub-agent: whatever the parent's
handle's state, the sub-agent's run can never produce the `interrupted`
outcome. -/
theorem agentToolRun_never_interrupted (parentCtx : Ctx)
    (parse : String → Except String Args)
    (cb : Ctx → String → Args → Except String String) (fuel : Nat)
    (resps : List TransportResult) (prompt : String) :
    (agentToolRun parentCtx parse cb fuel resps prompt).isInterrupted
      = false :=
  agentRun_not_interrupted ctxBackground parse cb rfl fuel resps
    (subAgentInitMessages prompt)

/-- Each of the four dispatch branches builds a tool-role message. -/
theorem sessionToolMsg_role (parse : String → Except String Args)
    (registry : List (String × CTool)) (tc : ToolCall) :
    (sessionToolMsg parse registry tc).role = "tool" := by
  rw [sessionToolMsg]
  split
  · rfl
  · split
    · rfl
    · split
      · rfl
      · rfl

/-- Each of the four dispatch branches tags the appended message with the
tool call's `ID`. -/
theorem sessionToolMsg_id (parse : String → Except String Args)
    (registry : List (String × CTool)) (tc : ToolCall) :
    (sessionToolMsg parse registry tc).toolCallID = tc.id := by
  rw [sessionToolMsg]
  split
  · rfl
  · split
    · rfl
    · split
      · rfl
      · rfl

/-- With no cancellation, the session's dispatch loop appends exactly the
per-call messages, in batch order, and reports no error. -/
theorem sessionDispatch_eq_map (ctx : Ctx)
    (parse : String → Except String Args)
    (registry : List (String × CTool)) (hdone : ctx.done = false) :
    ∀ (tcs : List ToolCall) (msgs : List Message),
      sessionDispatch ctx parse registry tcs msgs
        = (msgs ++ tcs.map (sessionToolMsg parse registry), none) := by
  intro tcs
  induction tcs with
  | nil => intro msgs; simp [sessionDispatch]
  | cons tc rest ih =>
    intro msgs
    rw [sessionDispatch]
    simp only [hdone, Bool.false_eq_true, if_false]
    rw [List.map_cons]
    cases hp : parse tc.function.arguments with
    | error e =>
      simp only [sessionToolMsg, hp]
      rw [ih]
      simp
    | ok args =>
      cases hlk : List.lookup tc.function.name registry with
      | none =>
        simp only [sessionToolMsg, hp, hlk]
        rw [ih]
        simp
      | some tool =>
        cases hr : tool.run args with
        | error e =>
          simp only [sessionToolMsg, hp, hlk, hr]
          rw [ih]
          simp
        | ok result =>
          simp only [sessionToolMsg, hp, hlk, hr]
          rw [ih]
          simp

/-- **C5.** For every batch of tool calls attached to an assistant message
(processed, as in `continueConversation`, right after that assistant
message was appended), the session's dispatch step appends exactly one
tool-role message per batch entry — the count of appended tool-role
messages equals the batch size — and every appended message's
`toolCallId` is the `ID` of one of the tool calls of that immediately
preceding assistant message. -/
theorem sessionDispatch_tool_msg_per_call (ctx : Ctx)
    (parse : String → Except String Args)
    (registry : List (String × CTool)) (am : Message)
    (msgs0 : List Message) (hdone : ctx.done = false) :
    ∃ appended,
      (sessionDispatch ctx parse registry am.toolCalls (msgs0 ++ [am])).1
          = (msgs0 ++ [am]) ++ appended
        ∧ appended.length = am.toolCalls.length
        ∧ ∀ m ∈ appended, m.role = "tool"
            ∧ m.toolCallID ∈ am.toolCalls.map ToolCall.id := by
  refine ⟨am.toolCalls.map (sessionToolMsg parse registry), ?_, by simp, ?_⟩
  · rw [sessionDispatch_eq_map ctx parse registry hdone]
  · intro m hm
    rw [List.mem_map] at hm
    obtain ⟨tc, htc, rfl⟩ := hm
    exact ⟨sessionToolMsg_role parse registry tc,
      sessionToolMsg_id parse registry tc ▸ List.mem_map_of_mem ToolCall.id htc⟩

/-- Witness for `sessionDispatch_tool_msg_per_call`: a two-call batch (one
call hitting a missing tool, one with unparseable arguments) appends two
tool-role messages carrying the batch's IDs. -/
theorem sessionDispatch_tool_msg_per_call_witness :
    ∃ appended,
      (sessionDispatch { done := false } (fun s => .ok [("raw", .str s)]) []
          (Message.mk "assistant" ""
            [{ id := "call-1", type_ := "function"
               function := { name := "read", arguments := "\x7b\x7d" } },
             { id := "call-2", type_ := "function"
               function := { name := "grep", arguments := "\x7b" } }] "").toolCalls
          ([{ role := "system", content := "prompt" }]
            ++ [Message.mk "assistant" ""
                  [{ id := "call-1", type_ := "function"
                     function := { name := "read", arguments := "\x7b\x7d" } },
                   { id := "call-2", type_ := "function"
                     function := { name := "grep", arguments := "\x7b" } }] ""])).1
        = ([{ role := "system", content := "prompt" }]
            ++ [Message.mk "assistant" ""
                  [{ id := "call-1", type_ := "function"
                     function := { name := "read", arguments := "\x7b\x7d" } },
                   { id := "call-2", type_ := "function"
                     function := { name := "grep", arguments := "\x7b" } }] ""])
          ++ appended
        ∧ appended.length
            = (Message.mk "assistant" ""
                [{ id := "call-1", type_ := "function"
                   function := { name := "read", arguments := "\x7b\x7d" } },
                 { id := "call-2", type_ := "function"
                   function := { name := "grep", arguments := "\x7b" } }]
                "").toolCalls.length
        ∧ ∀ m ∈ appended, m.role = "tool"
            ∧ m.toolCallID
                ∈ (Message.mk "assistant" ""
                    [{ id := "call-1", type_ := "function"
                       function := { name := "read", arguments := "\x7b\x7d" } },
                     { id := "call-2", type_ := "function"
                       function := { name := "grep", arguments := "\x7b" } }]
                    "").toolCalls.map ToolCall.id :=
  sessionDispatch_tool_msg_per_call { done := false }
    (fun s => .ok [("raw", .str s)]) []
    (Message.mk "assistant" ""
      [{ id := "call-1", type_ := "function"
         function := { name := "read", arguments := "\x7b\x7d" } },
       { id := "call-2", type_ := "function"
         function := { name := "grep", arguments := "\x7b" } }] "")
    [{ role := "system", content := "prompt" }] rfl

/-- The generated summary message's content starts with the marker, so the
`hasSummaryMessage` test recognizes it. -/
theorem strContains_summaryMessageFor (summary : String) :
    strContains (summaryMessageFor summary).content summaryMarker = true := by
  apply decide_eq_true
  apply List.IsPrefix.isInfix
  have h1 : ("Here is a summary of the conversation so far:\n\n" : String)
      = summaryMarker ++ "\n\n" := by decide
  show summaryMarker.data <+: (summaryMessageFor summary).content.data
  rw [summaryMessageFor]
  simp only [h1, String.data_append]
  rw [List.append_assoc, List.append_assoc]
  exact List.prefix_append _ _

/-- **C1, counterexample.** The claim says a successful compaction replaces
the whole history with a fresh system message plus a single user message
embedding the summary, leaving no prior message.  On the session
`[system, user "hi", assistant "yo"]` with summary `"S"`,
`AddSummaryToContext` instead *inserts* the summary — of role `system`,
not `user` — as the second message: the result has four messages and the
prior user and assistant messages both remain. -/
theorem compaction_keeps_history_cex :
    addSummaryToContext (.ok "S")
        [{ role := "system", content := "prompt" },
         { role := "user", content := "hi" },
         { role := "assistant", content := "yo" }]
      = .ok [{ role := "system", content := "prompt" },
             summaryMessageFor "S",
             { role := "user", content := "hi" },
             { role := "assistant", content := "yo" }]
    ∧ (Message.mk "user" "hi" [] "")
        ∈ [{ role := "system", content := "prompt" },
           summaryMessageFor "S",
           { role := "user", content := "hi" },
           { role := "assistant", content := "yo" }]
    ∧ ([{ role := "system", content := "prompt" },
        summaryMessageFor "S",
        { role := "user", content := "hi" },
        { role := "assistant", content := "yo" }] : List Message).length ≠ 2
    ∧ (summaryMessageFor "S").role = "system" := by
  refine ⟨rfl, ?_, by decide, rfl⟩
  simp [Message.mk.injEq]

/-- **C1, amended.** A successful summarization of a session with at least
one message beyond the system message does not replace the history: it
places the summary message (role `system`) at index 1 — updating an
existing summary message in place, otherwise inserting it — and keeps the
head and every remaining message of the prior history, growing the history
by at most one message. -/
theorem addSummaryToContext_inserts_summary (msgs : List Message)
    (summary : String) (hlen : 1 < msgs.length) (hs : summary ≠ "") :
    ∃ out, addSummaryToContext (.ok summary) msgs = .ok out
      ∧ out.head? = msgs.head?
      ∧ out[1]? = some (summaryMessageFor summary)
      ∧ out.drop 2
          = (if hasSummaryMessage msgs then msgs.drop 2 else msgs.drop 1)
      ∧ msgs.length ≤ out.length ∧ out.length ≤ msgs.length + 1 := by
  match msgs, hlen with
  | a :: b :: t, _ =>
    rw [addSummaryToContext]
    have hs' : (summary == "") = false := by
      simpa using hs
    rw [hs']
    simp only [Bool.false_eq_true, if_false]
    by_cases h : hasSummaryMessage (a :: b :: t)
    · refine ⟨a :: summaryMessageFor summary :: t, ?_, rfl, by simp, ?_, ?_, ?_⟩
      · simp [h, List.set]
      · simp [h]
      · simp
      · simp
    · have h' : hasSummaryMessage (a :: b :: t) = false := by
        simpa using h
      refine ⟨a :: summaryMessageFor summary :: b :: t, ?_, rfl, by simp,
        ?_, ?_, ?_⟩
      · simp [h', List.length_cons]
      · simp [h']
      · simp
      · simp
  | [], h => exact absurd h (by simp)
  | [a], h => exact absurd h (by simp)

/-- Witness for `addSummaryToContext_inserts_summary`. -/
theorem addSummaryToContext_inserts_summary_witness :
    ∃ out, addSummaryToContext (.ok "S")
          [{ role := "system", content := "prompt" },
           { role := "user", content := "hi" },
           { role := "assistant", content := "yo" }]
        = .ok out
      ∧ out.head?
          = ([{ role := "system", content := "prompt" },
              { role := "user", content := "hi" },
              { role := "assistant", content := "yo" }] : List Message).head?
      ∧ out[1]? = some (summaryMessageFor "S")
      ∧ out.drop 2
          = (if hasSummaryMessage
                [{ role := "system", content := "prompt" },
                 { role := "user", content := "hi" },
                 { role := "assistant", content := "yo" }]
             then ([{ role := "system", content := "prompt" },
                    { role := "user", content := "hi" },
                    { role := "assistant", content := "yo" }] :
                      List Message).drop 2
             else ([{ role := "system", content := "prompt" },
                    { role := "user", content := "hi" },
                    { role := "assistant", content := "yo" }] :
                      List Message).drop 1)
      ∧ ([{ role := "system", content := "prompt" },
          { role := "user", content := "hi" },
          { role := "assistant", content := "yo" }] : List Message).length
            ≤ out.length
      ∧ out.length
          ≤ ([{ role := "system", content := "prompt" },
              { role := "user", content := "hi" },
              { role := "assistant", content := "yo" }] :
                List Message).length + 1 :=
  addSummaryToContext_inserts_summary
    [{ role := "system", content := "prompt" },
     { role := "user", content := "hi" },
     { role := "assistant", content := "yo" }]
    "S" (by decide) (by decide)

/-- **C9.** When the session's second message is already a summary message
(system role, content containing the marker), a successful summarization
with a non-empty summary replaces that second message in place: the length
is unchanged, every index other than 1 is unchanged, index 1 holds the new
summary message — and the result again satisfies the summary-message test,
so repeated summarization keeps replacing in place and never grows the
history by more than the single message the first insertion added. -/
theorem addSummaryToContext_replaces_in_place (msgs : List Message)
    (summary : String) (h : hasSummaryMessage msgs = true)
    (hs : summary ≠ "") :
    ∃ out, addSummaryToContext (.ok summary) msgs = .ok out
      ∧ out.length = msgs.length
      ∧ out[1]? = some (summaryMessageFor summary)
      ∧ (∀ i, i ≠ 1 → out[i]? = msgs[i]?)
      ∧ hasSummaryMessage out = true := by
  match msgs, h with
  | a :: b :: t, hc =>
    refine ⟨a :: summaryMessageFor summary :: t, ?_, by simp, by simp, ?_, ?_⟩
    · rw [addSummaryToContext]
      have hs' : (summary == "") = false := by simpa using hs
      rw [hs']
      simp [hc, List.set]
    · intro i hi
      match i with
      | 0 => rfl
      | 1 => exact absurd rfl hi
      | n + 2 => simp
    · simp only [hasSummaryMessage]
      rw [Bool.and_eq_true]
      exact ⟨rfl, strContains_summaryMessageFor summary⟩
  | [], hc => exact absurd hc Bool.false_ne_true
  | [a], hc => exact absurd hc Bool.false_ne_true

/-- Witness for `addSummaryToContext_replaces_in_place`. -/
theorem addSummaryToContext_replaces_in_place_witness :
    ∃ out, addSummaryToContext (.ok "NEW")
          [{ role := "system", content := "prompt" },
           summaryMessageFor "OLD",
           { role := "user", content := "hi" }]
        = .ok out
      ∧ out.length
          = ([{ role := "system", content := "prompt" },
              summaryMessageFor "OLD",
              { role := "user", content := "hi" }] : List Message).length
      ∧ out[1]? = some (summaryMessageFor "NEW")
      ∧ (∀ i, i ≠ 1 →
          out[i]? = ([{ role := "system", content := "prompt" },
                      summaryMessageFor "OLD",
                      { role := "user", content := "hi" }] :
                        List Message)[i]?)
      ∧ hasSummaryMessage out = true :=
  addSummaryToContext_replaces_in_place
    [{ role := "system", content := "prompt" },
     summaryMessageFor "OLD",
     { role := "user", content := "hi" }]
    "NEW"
    (by
      rw [hasSummaryMessage]
      simp only [Bool.and_eq_true, beq_iff_eq]
      exact ⟨rfl, strContains_summaryMessageFor "OLD"⟩)
    (by decide)

/-- **C10.** The summarization request of `SummarizeMessages` consists of
its own system prompt, a middle segment, and the final user instruction;
the middle segment is a sublist of the last 20 session messages (so no
earlier message ever appears) and contains no tool-role message. -/
theorem summaryPromptOf_window (msgs : List Message) :
    ∃ mid, summaryPromptOf msgs
        = summarySystemMessage :: (mid ++ [summaryFinalUserMessage])
      ∧ List.Sublist mid (msgs.drop (msgs.length - 20))
      ∧ ∀ m ∈ mid, m.role ≠ "tool" := by
  refine ⟨(msgs.drop (max 1 (msgs.length - 20))).filter
    (fun m => m.role != "tool"), rfl, ?_, ?_⟩
  · apply List.Sublist.trans (List.filter_sublist _)
    have h2 : msgs.drop (max 1 (msgs.length - 20))
        = (msgs.drop (msgs.length - 20)).drop
            (max 1 (msgs.length - 20) - (msgs.length - 20)) := by
      rw [List.drop_drop]
      congr 1
      omega
    rw [h2]
    exact List.drop_sublist _ _
  · intro m hm
    rw [List.mem_filter] at hm
    simpa using hm.2

end Coder
